import Mathlib

/-!
Verification of the time-zone resolution core (`src/builtins/core/timezone.rs`)
of the temporal repository.

The core's own code (the `UtcOffset` value type, the `TimeZone` variant type,
offset resolution, local-time resolution, disambiguation and start-of-day) is
embedded directly from the source.  The ISO date/time helpers, the time-zone
database provider and the offset text tokenizer/renderer are external
collaborators of the core (they are not part of the sources under
verification); they are modelled from the specification, as noted on each
definition.  Machine integers (`i64`, `i128`, `i16`, `u8`, `u32`, `usize`) are
modelled as unbounded `Int`/`Nat` together with the explicit narrowing
conversions that appear in the source (`try_from ... unwrap_or(0)`,
`to_i64().unwrap_or(0)`).
-/

namespace Temporal

/-- Source constant `NS_IN_HOUR` (nanoseconds in one hour). -/
def NS_IN_HOUR : Int := 60 * 60 * 1000 * 1000 * 1000

/-- Source constant `NS_IN_S` (nanoseconds in one second). -/
def NS_IN_S : Int := 1000000000

/-- Source constant `NS_IN_MIN` (nanoseconds in one minute). -/
def NS_IN_MIN : Int := 60000000000

/-- Modelled from the spec: nanoseconds in one day, used by the consumed ISO
balancing helpers. -/
def nsPerDay : Int := 86400000000000

/-- Modelled from the spec: the representable-instant bound (`EpochNanoseconds`
is range-checked against an implementation-defined representable-instant
bound); the bound is 10^8 days in nanoseconds. -/
def nsMaxInstant : Int := 8640000000000000000000

/-- Modelled from the spec: the representable day range used by
`CheckISODaysRange` (`is_valid_day_range`): at most 10^8 days from the epoch. -/
def maxDayRange : Nat := 100000000

/-- Modelled from the spec: the day bound of the valid ISO date range used by
the consumed `IsoDate` balancing helper (`IsoDate::try_balance`); it lies
strictly beyond the representable day range. -/
def maxIsoDays : Nat := 100000366

/-- Rust `i16::try_from(n)` on an unbounded integer. -/
def i16TryFrom (n : Int) : Option Int :=
  if -32768 ≤ n ∧ n ≤ 32767 then some n else none

/-- Rust `u8::try_from(n).unwrap_or(0)` on a non-negative count. -/
def u8Lossy (n : Nat) : Nat := if n ≤ 255 then n else 0

/-- Rust `u32::try_from(n).unwrap_or(0)` on a non-negative count. -/
def u32Lossy (n : Nat) : Nat := if n ≤ 4294967295 then n else 0

/-- Rust `i128::to_i64().unwrap_or(0)`. -/
def i64Lossy (n : Int) : Int :=
  if -9223372036854775808 ≤ n ∧ n ≤ 9223372036854775807 then n else 0

/-- The error kinds produced by the core.  `range`, `typeError` and
`assertion` are the `TemporalError` kinds constructed in the source
(`TemporalError::range()`, `TemporalError::r#type()`, `TemporalError::assert()`);
`invariantPanic` models a Rust `debug_assert!`/index panic: a fail-fast,
non-recoverable invariant failure rather than a returned error value. -/
inductive TemporalError where
  | range (msg : String)
  | typeError (msg : String)
  | assertion (msg : String)
  | invariantPanic (msg : String)
  deriving DecidableEq, Repr

/-- An error kind is an internal invariant failure (contract violation signal)
as opposed to a recoverable, data-caused error. -/
def TemporalError.isInvariantFailure : TemporalError → Bool
  | .assertion _ => true
  | .invariantPanic _ => true
  | _ => false

/-- Result type of the fallible core operations. -/
abbrev TemporalResult (α : Type) := Except TemporalError α

/-- The error raised by `disambiguate_possible_epoch_nanos` under the `Reject`
policy (source: `TemporalError::range().with_message("Rejecting ambiguous time zones.")`). -/
def ambiguousTimeError : TemporalError :=
  .range "Rejecting ambiguous time zones."

/-- Modelled from the spec: the error raised when a local date falls outside
the representable day range (`DateOutOfRange`). -/
def dateOutOfRangeError : TemporalError :=
  .range "DateTime is not within a valid epoch range."

/-- Modelled from the spec: the error raised when a candidate instant fails
the representable-instant bound (`InstantOutOfRange`). -/
def instantOutOfRangeError : TemporalError :=
  .range "Instant is not within a valid epoch range."

/-- The error raised by `get_start_of_day` when the start of day cannot be
determined (source message). -/
def startOfDayUndeterminedError : TemporalError :=
  .typeError "Could not determine the start of day for the provided date."

/-- Modelled from the spec: the error raised by the offset tokenizer on
malformed offset text. -/
def invalidOffsetError : TemporalError :=
  .range "Invalid UTC offset string."

/-- Sign of an offset (source `crate::Sign`, also standing for the ixdtf
record sign, both of which convert to ±1). -/
inductive Sign where
  | positive
  | negative
  deriving DecidableEq, Repr

/-- Numeric value of a sign (`record.sign() as i64` in the source). -/
def Sign.toInt : Sign → Int
  | .positive => 1
  | .negative => -1

/-- A UTC time zone offset stored in nanoseconds (source `UtcOffset(i64)`). -/
structure UtcOffset where
  ns : Int
  deriving DecidableEq, Repr

/-- Source `UtcOffset::nanoseconds`. -/
def UtcOffset.nanoseconds (o : UtcOffset) : Int := o.ns

/-- Source `UtcOffset::from_minutes` (the argument is an `i16`). -/
def UtcOffset.from_minutes (minutes : Int) : UtcOffset :=
  ⟨minutes * NS_IN_MIN⟩

/-- Source `UtcOffset::minutes`: `i16::try_from(self.0 / NS_IN_MIN).unwrap_or(0)`;
Rust `i64` division truncates toward zero (`Int.tdiv`). -/
def UtcOffset.minutes (o : UtcOffset) : Int :=
  (i16TryFrom (o.ns.tdiv NS_IN_MIN)).getD 0

/-- Source `UtcOffset::is_sub_minute`: `self.0 % NS_IN_MIN != 0` (Rust `%` on
`i64` is the truncating remainder, `Int.tmod`). -/
def UtcOffset.is_sub_minute (o : UtcOffset) : Bool :=
  o.ns.tmod NS_IN_MIN != 0

/-- Sub-second fraction of an offset record, as produced by the external
tokenizer: a digit count together with the denoted numerator.  Modelled from
the spec: a fraction of up to nine digits; `to_nanoseconds` fails beyond nine
digits. -/
structure IxFraction where
  digitCount : Nat
  value : Nat
  deriving DecidableEq, Repr

/-- Modelled from the spec: the fraction scaled to nanoseconds, `none` when
the fraction exceeds nine digits of precision. -/
def IxFraction.to_nanoseconds (f : IxFraction) : Option Nat :=
  if f.digitCount ≤ 9 then some (f.value * 10 ^ (9 - f.digitCount)) else none

/-- A pre-tokenized offset record (hour, minute, optional second, optional
sub-second fraction, sign), the shape consumed by
`UtcOffset::from_ixdtf_record`.  Modelled from the spec: the textual parser is
an external collaborator consumed as an already-parsed record. -/
structure UtcOffsetRecord where
  sign : Sign
  hour : Nat
  minute : Nat
  second : Option Nat
  fraction : Option IxFraction
  deriving DecidableEq, Repr

/-- Source `UtcOffset::from_ixdtf_record`: computes total nanoseconds from the
record; a sub-second fraction beyond nine digits fails; no second present
gives a minute-level value. -/
def UtcOffset.from_ixdtf_record (record : UtcOffsetRecord) : TemporalResult UtcOffset :=
  let hours : Int := record.hour
  let minutes : Int := 60 * hours + record.minute
  let sign := record.sign.toInt
  match record.second with
  | some second =>
    let seconds : Int := 60 * minutes + second
    let ns : Int := seconds * NS_IN_S
    match record.fraction with
    | some frac =>
      match frac.to_nanoseconds with
      | some fracNs => .ok ⟨(ns + fracNs) * sign⟩
      | none => .error (.range "FractionalTimeMoreThanNineDigits")
    | none => .ok ⟨ns * sign⟩
  | none => .ok ⟨minutes * sign * NS_IN_MIN⟩

/-- Modelled from the spec: a calendar date within the valid ISO range,
represented by its day number from the epoch.  The consumed `IsoDate` value
carries year/month/day fields; only its balancing and day-counting contract is
relevant to the core, so the date is identified with its epoch day count. -/
structure IsoDate where
  epochDays : Int
  deriving DecidableEq, Repr

/-- Modelled from the spec: a wall-clock time
(hour/minute/second/millisecond/microsecond/nanosecond). -/
structure IsoTime where
  hour : Nat
  minute : Nat
  second : Nat
  millisecond : Nat
  microsecond : Nat
  nanosecond : Nat
  deriving DecidableEq, Repr

/-- Modelled from the spec: the `MidnightTimeRecord` / `IsoTime::default`
value used by `get_start_of_day`. -/
def IsoTime.midnight : IsoTime := ⟨0, 0, 0, 0, 0, 0⟩

/-- Modelled from the spec: the total nanosecond count denoted by the time
fields. -/
def IsoTime.toNs (t : IsoTime) : Int :=
  (((t.hour * 60 + t.minute) * 60 + t.second) * 1000000000
    + t.millisecond * 1000000 + t.microsecond * 1000 + t.nanosecond : Nat)

/-- Modelled from the spec: decompose a within-day nanosecond count into time
fields. -/
def timeFromNs (r : Nat) : IsoTime :=
  { hour := r / 3600000000000
    minute := r / 60000000000 % 60
    second := r / 1000000000 % 60
    millisecond := r / 1000000 % 1000
    microsecond := r / 1000 % 1000
    nanosecond := r % 1000 }

/-- Modelled from the spec: balance a signed nanosecond count into a day carry
(floor division) and a wall-clock time. -/
def balanceTimeNs (total : Int) : Int × IsoTime :=
  (total / nsPerDay, timeFromNs (total % nsPerDay).toNat)

/-- Modelled from the spec: `AddTime` — shift a wall-clock time by a signed
nanosecond duration, returning the day carry and the balanced time (source
call sites `iso.time.add(time_duration)`). -/
def IsoTime.add (t : IsoTime) (d : Int) : Int × IsoTime :=
  balanceTimeNs (t.toNs + d)

/-- Modelled from the spec: a calendar date plus a wall-clock time
(`CombineISODateAndTimeRecord` / `IsoDateTime::new_unchecked` builds one from
its parts). -/
structure IsoDateTime where
  date : IsoDate
  time : IsoTime
  deriving DecidableEq, Repr

/-- Modelled from the spec: `BalanceISODateTime` — normalize out-of-range time
fields into day carries (source call site `IsoDateTime::balance(year, month,
day, hour, minute, second, millisecond, microsecond, nanosecond)`; the date
components are summarized by the epoch day count `days`). -/
def IsoDateTime.balance (days h min s ms us ns : Int) : IsoDateTime :=
  let total := ((h * 60 + min) * 60 + s) * 1000000000 + ms * 1000000 + us * 1000 + ns
  let carried := balanceTimeNs total
  ⟨⟨days + carried.fst⟩, carried.snd⟩

/-- Modelled from the spec: `CheckISODaysRange` (`is_valid_day_range`) —
reject a date more than 10^8 days from the epoch with `DateOutOfRange`. -/
def IsoDate.is_valid_day_range (d : IsoDate) : TemporalResult Unit :=
  if d.epochDays.natAbs ≤ maxDayRange then .ok () else .error dateOutOfRangeError

/-- Modelled from the spec: `BalanceISODate` with failure (`IsoDate::try_balance`)
— balance a day count into a date, failing when it leaves the valid ISO
range. -/
def IsoDate.try_balance (days : Int) : TemporalResult IsoDate :=
  if days.natAbs ≤ maxIsoDays then .ok ⟨days⟩
  else .error (.range "DateTime is not within a valid ISO range.")

/-- An absolute instant: a signed nanosecond count from the epoch (source
`EpochNanoseconds`, a 128-bit count). -/
structure EpochNanoseconds where
  ns : Int
  deriving DecidableEq, Repr

/-- Modelled from the spec: validation of an instant against the
representable-instant bound; failure is `InstantOutOfRange`. -/
def EpochNanoseconds.check_validity (e : EpochNanoseconds) : TemporalResult Unit :=
  if e.ns.natAbs ≤ nsMaxInstant.natAbs then .ok () else .error instantOutOfRangeError

/-- Modelled from the spec: `GetUTCEpochNanoseconds` (`as_nanoseconds`) —
convert a balanced date-time to an absolute instant. -/
def IsoDateTime.as_nanoseconds (dt : IsoDateTime) : EpochNanoseconds :=
  ⟨dt.date.epochDays * nsPerDay + dt.time.toNs⟩

/-- Modelled from the spec: `GetISOPartsFromEpoch` + `BalanceISODateTime`
(`IsoDateTime::from_epoch_nanos`) — the local date-time read off an instant
shifted by an offset, failing when the local date leaves the valid ISO
range. -/
def IsoDateTime.from_epoch_nanos (epoch offset : Int) : TemporalResult IsoDateTime :=
  let carried := balanceTimeNs (epoch + offset)
  if carried.fst.natAbs ≤ maxIsoDays then .ok ⟨⟨carried.fst⟩, carried.snd⟩
  else .error (.range "DateTime is not within a valid ISO range.")

/-- Modelled from the spec: calendar-safe shifting of a local date-time by a
signed nanosecond duration; the general calendar/date-duration parameters of
the source helper (`iso.add_date_duration(Calendar::default(),
&DateDuration::default(), NormalizedTimeDuration(d), None)`) are fixed at
their defaults at both call sites. -/
def IsoDateTime.add_date_duration (iso : IsoDateTime) (d : Int) : TemporalResult IsoDateTime := do
  let shifted := iso.time.add d
  let date ← IsoDate.try_balance (iso.date.epochDays + shifted.fst)
  pure ⟨date, shifted.snd⟩

/-- Provider output (source `TimeZoneTransitionInfo`): the offset in effect at
the queried instant, in whole seconds, plus the optional transition epoch, in
whole seconds. -/
structure TimeZoneTransitionInfo where
  offset : Int
  transition_epoch : Option Int
  deriving DecidableEq, Repr

/-- The injected time-zone database provider (spec §6): offset-at-instant and
candidate-instants-at-local-time queries for named zones. -/
structure TimeZoneProvider where
  get_named_tz_offset_nanoseconds :
    String → Int → TemporalResult TimeZoneTransitionInfo
  get_named_tz_epoch_nanoseconds :
    String → IsoDateTime → TemporalResult (List EpochNanoseconds)

/-- Source `TimeZone`: a closed variant over a named IANA identifier and a
fixed `UtcOffset`. -/
inductive TimeZone where
  | IanaIdentifier (id : String)
  | UtcOffset (offset : UtcOffset)
  deriving DecidableEq, Repr

/-- Disambiguation policy (source `Disambiguation` enum). -/
inductive Disambiguation where
  | Compatible
  | Earlier
  | Later
  | Reject
  deriving DecidableEq, Repr

/-- Rust slice indexing `l[i]`: the element, or an index-out-of-bounds panic. -/
def listIndex {α : Type} (l : List α) (i : Nat) : TemporalResult α :=
  match l.get? i with
  | some x => .ok x
  | none => .error (.invariantPanic "index out of bounds")

/-- Source `TimeZone::get_offset_nanos_for`: a fixed offset returns its stored
value; a named zone queries the provider and scales the whole-second offset to
nanoseconds. -/
def TimeZone.get_offset_nanos_for (tz : TimeZone) (utc_epoch : Int)
    (provider : TimeZoneProvider) : TemporalResult Int :=
  match tz with
  | .UtcOffset offset => .ok offset.nanoseconds
  | .IanaIdentifier identifier =>
    (provider.get_named_tz_offset_nanoseconds identifier utc_epoch).map
      (fun transition => transition.offset * 1000000000)

/-- Source `TimeZone::get_possible_epoch_ns_for`: the fixed-offset branch
(with its `debug_assert!` on sub-minute offsets modelled as a fail-fast
panic), the named branch delegating to the provider after the unbalanced-date
range check, and the validation of every candidate against the
representable-instant bound. -/
def TimeZone.get_possible_epoch_ns_for (tz : TimeZone) (iso : IsoDateTime)
    (provider : TimeZoneProvider) : TemporalResult (List EpochNanoseconds) := do
  let possible_nanoseconds : List EpochNanoseconds ←
    match tz with
    | .UtcOffset offset =>
      if offset.is_sub_minute then
        .error (.invariantPanic
          "Called get_possible_epoch_ns_for on a sub-minute-precision offset")
      else do
        let balanced := IsoDateTime.balance
          iso.date.epochDays
          iso.time.hour
          ((iso.time.minute : Int) - offset.minutes)
          iso.time.second
          iso.time.millisecond
          iso.time.microsecond
          iso.time.nanosecond
        let _ ← balanced.date.is_valid_day_range
        let epoch_ns := balanced.as_nanoseconds
        pure [epoch_ns]
    | .IanaIdentifier identifier => do
      let _ ← iso.date.is_valid_day_range
      provider.get_named_tz_epoch_nanoseconds identifier iso
  let _ ← possible_nanoseconds.forM EpochNanoseconds.check_validity
  pure possible_nanoseconds

/-- Source `TimeZone::disambiguate_possible_epoch_nanos`: the candidate-count
state machine, and the gap-resolution path probing ±3 hours (with its
`debug_assert_eq!` single-candidate probe invariants modelled as fail-fast
panics, like the slice indexing). -/
def TimeZone.disambiguate_possible_epoch_nanos (tz : TimeZone)
    (nanos : List EpochNanoseconds) (iso : IsoDateTime)
    (disambiguation : Disambiguation) (provider : TimeZoneProvider) :
    TemporalResult EpochNanoseconds := do
  let n := nanos.length
  if n = 1 then
    listIndex nanos 0
  else if n ≠ 0 then
    match disambiguation with
    | .Compatible | .Earlier => listIndex nanos 0
    | .Later => listIndex nanos (n - 1)
    | .Reject => .error ambiguousTimeError
  else if disambiguation = .Reject then
    .error ambiguousTimeError
  else do
    let before ← iso.add_date_duration (-3 * NS_IN_HOUR)
    let after ← iso.add_date_duration (3 * NS_IN_HOUR)
    let before_possible ← tz.get_possible_epoch_ns_for before provider
    let _ ←
      if before_possible.length = 1 then pure ()
      else (.error (.invariantPanic "assertion failed: beforePossible length is 1")
        : TemporalResult Unit)
    let after_possible ← tz.get_possible_epoch_ns_for after provider
    let _ ←
      if after_possible.length = 1 then pure ()
      else (.error (.invariantPanic "assertion failed: afterPossible length is 1")
        : TemporalResult Unit)
    let bp0 ← listIndex before_possible 0
    let ap0 ← listIndex after_possible 0
    let offset_before ← tz.get_offset_nanos_for bp0.ns provider
    let offset_after ← tz.get_offset_nanos_for ap0.ns provider
    let nanoseconds := offset_after - offset_before
    if disambiguation = .Earlier then do
      let earlier_time := iso.time.add (-nanoseconds)
      let earlier_date ← IsoDate.try_balance (iso.date.epochDays + earlier_time.fst)
      let earlier : IsoDateTime := ⟨earlier_date, earlier_time.snd⟩
      let possible ← tz.get_possible_epoch_ns_for earlier provider
      listIndex possible 0
    else do
      let later_time := iso.time.add nanoseconds
      let later_date ← IsoDate.try_balance (iso.date.epochDays + later_time.fst)
      let later : IsoDateTime := ⟨later_date, later_time.snd⟩
      let possible ← tz.get_possible_epoch_ns_for later provider
      listIndex possible (possible.length - 1)

/-- Source `TimeZone::get_epoch_nanoseconds_for`: local-time resolution
followed by disambiguation. -/
def TimeZone.get_epoch_nanoseconds_for (tz : TimeZone) (iso : IsoDateTime)
    (disambiguation : Disambiguation) (provider : TimeZoneProvider) :
    TemporalResult EpochNanoseconds := do
  let possible_nanos ← tz.get_possible_epoch_ns_for iso provider
  tz.disambiguate_possible_epoch_nanos possible_nanos iso disambiguation provider

/-- Source `TimeZone::get_iso_datetime_for`: the local date-time a time zone
assigns to an absolute instant. -/
def TimeZone.get_iso_datetime_for (tz : TimeZone) (instant : Int)
    (provider : TimeZoneProvider) : TemporalResult IsoDateTime := do
  let nanos ← tz.get_offset_nanos_for instant provider
  IsoDateTime.from_epoch_nanos instant (i64Lossy nanos)

/-- Source `TimeZone::get_start_of_day`: local midnight when resolvable,
otherwise (for a named zone) the provider transition epoch found through the
local-hour-3 probe. -/
def TimeZone.get_start_of_day (tz : TimeZone) (iso_date : IsoDate)
    (provider : TimeZoneProvider) : TemporalResult EpochNanoseconds := do
  let iso : IsoDateTime := ⟨iso_date, IsoTime.midnight⟩
  let possible_nanos ← tz.get_possible_epoch_ns_for iso provider
  match possible_nanos with
  | x :: _ => pure x
  | [] =>
    match tz with
    | .UtcOffset _ =>
      .error (.assertion "Timezone was not an Iana identifier.")
    | .IanaIdentifier identifier => do
      let after : IsoDateTime := ⟨iso_date, ⟨3, 0, 0, 0, 0, 0⟩⟩
      let after_list ← tz.get_possible_epoch_ns_for after provider
      match after_list with
      | [] => .error startOfDayUndeterminedError
      | after_epoch :: _ => do
        let info ← provider.get_named_tz_offset_nanoseconds identifier after_epoch.ns
        match info.transition_epoch with
        | none => .error startOfDayUndeterminedError
        | some transition_epoch =>
          pure ⟨transition_epoch * 1000000000⟩

/-- First element of a candidate list, with the spec's non-emptiness invariant
signalled as a fail-fast failure. -/
def specFirst {α : Type} (l : List α) : TemporalResult α :=
  match l.head? with
  | some x => .ok x
  | none => .error (.invariantPanic "index out of bounds")

/-- Last element of a candidate list, with the spec's non-emptiness invariant
signalled as a fail-fast failure. -/
def specLast {α : Type} (l : List α) : TemporalResult α :=
  match l.getLast? with
  | some x => .ok x
  | none => .error (.invariantPanic "index out of bounds")

/-- Gap resolution as worded by the specification (§4.5, zero candidates and a
non-`Reject` policy): probe `local ± 3h` by calendar-safe shifting, resolve
each probe independently (each must yield exactly one candidate — asserted),
take `delta = offset_at(after_instant) − offset_at(before_instant)`; for
`Earlier` shift the local time backward by `delta`, re-balance carrying day
overflow, re-resolve and return the first candidate; for `Compatible`/`Later`
shift forward by `delta`, re-balance, re-resolve and return the last
candidate. -/
def gapResolutionSpec (tz : TimeZone) (iso : IsoDateTime)
    (disambiguation : Disambiguation) (provider : TimeZoneProvider) :
    TemporalResult EpochNanoseconds := do
  let before ← iso.add_date_duration (-3 * NS_IN_HOUR)
  let after ← iso.add_date_duration (3 * NS_IN_HOUR)
  let beforePossible ← tz.get_possible_epoch_ns_for before provider
  let _ ←
    if beforePossible.length = 1 then pure ()
    else (.error (.invariantPanic "assertion failed: beforePossible length is 1")
      : TemporalResult Unit)
  let afterPossible ← tz.get_possible_epoch_ns_for after provider
  let _ ←
    if afterPossible.length = 1 then pure ()
    else (.error (.invariantPanic "assertion failed: afterPossible length is 1")
      : TemporalResult Unit)
  let beforeInstant ← specFirst beforePossible
  let afterInstant ← specFirst afterPossible
  let offsetBefore ← tz.get_offset_nanos_for beforeInstant.ns provider
  let offsetAfter ← tz.get_offset_nanos_for afterInstant.ns provider
  let delta := offsetAfter - offsetBefore
  if disambiguation = .Earlier then do
    let shifted := iso.time.add (-delta)
    let shiftedDate ← IsoDate.try_balance (iso.date.epochDays + shifted.fst)
    let resolved ← tz.get_possible_epoch_ns_for ⟨shiftedDate, shifted.snd⟩ provider
    specFirst resolved
  else do
    let shifted := iso.time.add delta
    let shiftedDate ← IsoDate.try_balance (iso.date.epochDays + shifted.fst)
    let resolved ← tz.get_possible_epoch_ns_for ⟨shiftedDate, shifted.snd⟩ provider
    specLast resolved

/-- Decimal digit character for a digit value below ten. -/
def digitChar (d : Nat) : Char := Char.ofNat (48 + d)

/-- Modelled from the spec: a decimal field rendered with a minimum width of
two digits (zero-padded below ten, full decimal expansion otherwise). -/
def pad2 (n : Nat) : List Char :=
  if n < 100 then [digitChar (n / 10), digitChar (n % 10)] else Nat.toDigits 10 n

/-- Modelled from the spec: the nine-digit zero-padded decimal expansion of a
sub-second nanosecond count. -/
def fracDigits9 (ns : Nat) : List Char :=
  (List.range 9).map (fun i => digitChar (ns / 10 ^ (8 - i) % 10))

/-- Modelled from the spec: trim trailing zero digits (the fraction is trimmed
to the minimum digits needed). -/
def trimZeros (l : List Char) : List Char :=
  (l.reverse.dropWhile (· == '0')).reverse

/-- Rendering precision selector (source `Precision`): `minute` renders
`HH:MM` only, `auto` extends with seconds and a trimmed fraction when
non-zero. -/
inductive Precision where
  | minute
  | auto
  deriving DecidableEq, Repr

/-- Source `FormattableTime`: the components handed to the external offset
renderer. -/
structure FormattableTime where
  hour : Nat
  minute : Nat
  second : Nat
  nanosecond : Nat
  precision : Precision
  include_sep : Bool
  deriving DecidableEq, Repr

/-- Source `FormattableOffset`. -/
structure FormattableOffset where
  sign : Sign
  time : FormattableTime
  deriving DecidableEq, Repr

/-- Modelled from the spec: the external offset renderer
(`FormattableOffset::to_string`), emitting `SIGN HH : MM [ : SS [ . F ] ]`
with the sign always present, the seconds block only at `auto` precision and
the fraction only when the sub-second nanoseconds are non-zero, trimmed to the
minimum digits needed. -/
def FormattableOffset.render (f : FormattableOffset) : List Char :=
  let sep : List Char := if f.time.include_sep then [':'] else []
  let sc : Char := match f.sign with
    | .positive => '+'
    | .negative => '-'
  let base := sc :: pad2 f.time.hour ++ sep ++ pad2 f.time.minute
  match f.time.precision with
  | .minute => base
  | .auto =>
    base ++ sep ++ pad2 f.time.second ++
      (if f.time.nanosecond = 0 then []
       else '.' :: trimZeros (fracDigits9 f.time.nanosecond))

/-- The sub-second nanosecond component rendered by `UtcOffset::to_string`
(source: `u32::try_from(nanoseconds_total % NS_IN_S).unwrap_or(0)` on the
absolute value). -/
def UtcOffset.fmtNanosecond (o : UtcOffset) : Nat :=
  u32Lossy (o.ns.natAbs % 1000000000)

/-- The second component rendered by `UtcOffset::to_string`. -/
def UtcOffset.fmtSecond (o : UtcOffset) : Nat :=
  u8Lossy (o.ns.natAbs / 1000000000 % 60)

/-- The minute component rendered by `UtcOffset::to_string`. -/
def UtcOffset.fmtMinute (o : UtcOffset) : Nat :=
  u8Lossy (o.ns.natAbs / 1000000000 / 60 % 60)

/-- The hour component rendered by `UtcOffset::to_string`. -/
def UtcOffset.fmtHour (o : UtcOffset) : Nat :=
  u8Lossy (o.ns.natAbs / 1000000000 / 60 / 60)

/-- Source `UtcOffset::to_string`: decompose the absolute nanosecond value
into hour/minute/second/nanosecond, pick minute precision exactly when the
second and sub-second components are both zero, and render. -/
def UtcOffset.to_string (o : UtcOffset) : String :=
  let sign := if o.ns < 0 then Sign.negative else Sign.positive
  let precision :=
    if o.fmtNanosecond = 0 ∧ o.fmtSecond = 0 then Precision.minute else Precision.auto
  String.mk (FormattableOffset.render
    ⟨sign, ⟨o.fmtHour, o.fmtMinute, o.fmtSecond, o.fmtNanosecond, precision, true⟩⟩)

/-- Digit value of a decimal digit character. -/
def charDigit? (c : Char) : Option Nat :=
  if '0' ≤ c ∧ c ≤ '9' then some (c.toNat - 48) else none

/-- Modelled from the spec: tokenize a two-digit decimal field. -/
def parse2 (l : List Char) : TemporalResult (Nat × List Char) :=
  match l with
  | c1 :: c2 :: rest =>
    match charDigit? c1, charDigit? c2 with
    | some a, some b => .ok (10 * a + b, rest)
    | _, _ => .error invalidOffsetError
  | _ => .error invalidOffsetError

/-- Modelled from the spec: tokenize a run of decimal digits into its digit
count and value, `none` on a non-digit. -/
def parseFracDigits : List Char → Option (Nat × Nat)
  | [] => some (0, 0)
  | c :: rest => do
    let d ← charDigit? c
    let tail ← parseFracDigits rest
    some (tail.fst + 1, d * 10 ^ tail.fst + tail.snd)

/-- Modelled from the spec: tokenize a non-empty sub-second fraction. -/
def parseFrac (l : List Char) : TemporalResult IxFraction :=
  match parseFracDigits l with
  | some (0, _) => .error invalidOffsetError
  | some (count, value) => .ok ⟨count, value⟩
  | none => .error invalidOffsetError

/-- Modelled from the spec: the external offset tokenizer for the canonical
textual form `SIGN HH : MM [ : SS [ . F ] ]` (spec §6), producing the record
consumed by `UtcOffset::from_ixdtf_record`; hour at most 23, minute and second
at most 60 as the parser restricts them. -/
def parseOffsetText (l : List Char) : TemporalResult UtcOffsetRecord := do
  match l with
  | [] => .error invalidOffsetError
  | c :: rest => do
    let sign : Sign ←
      match c with
      | '+' => pure Sign.positive
      | '-' => pure Sign.negative
      | _ => .error invalidOffsetError
    let hourParsed ← parse2 rest
    let _ ←
      if hourParsed.fst ≤ 23 then pure ()
      else (.error invalidOffsetError : TemporalResult Unit)
    match hourParsed.snd with
    | ':' :: rest2 => do
      let minuteParsed ← parse2 rest2
      let _ ←
        if minuteParsed.fst ≤ 60 then pure ()
        else (.error invalidOffsetError : TemporalResult Unit)
      match minuteParsed.snd with
      | [] => .ok ⟨sign, hourParsed.fst, minuteParsed.fst, none, none⟩
      | ':' :: rest4 => do
        let secondParsed ← parse2 rest4
        let _ ←
          if secondParsed.fst ≤ 60 then pure ()
          else (.error invalidOffsetError : TemporalResult Unit)
        match secondParsed.snd with
        | [] => .ok ⟨sign, hourParsed.fst, minuteParsed.fst, some secondParsed.fst, none⟩
        | '.' :: rest6 => do
          let frac ← parseFrac rest6
          .ok ⟨sign, hourParsed.fst, minuteParsed.fst, some secondParsed.fst, some frac⟩
        | _ => .error invalidOffsetError
      | _ => .error invalidOffsetError
    | _ => .error invalidOffsetError

/-- Source `UtcOffset::from_utf8`: tokenize the offset text (external
tokenizer, modelled from the spec) and convert the record. -/
def UtcOffset.from_utf8 (s : String) : TemporalResult UtcOffset := do
  let record ← parseOffsetText s.data
  UtcOffset.from_ixdtf_record record

/-- The balanced local date-time computed inside the fixed-offset branch of
`get_possible_epoch_ns_for`: the offset's minutes subtracted from the local
minute field, balanced with day carry. -/
def fixedOffsetBalanced (o : UtcOffset) (iso : IsoDateTime) : IsoDateTime :=
  IsoDateTime.balance
    iso.date.epochDays
    iso.time.hour
    ((iso.time.minute : Int) - o.minutes)
    iso.time.second
    iso.time.millisecond
    iso.time.microsecond
    iso.time.nanosecond

/-- A provider that knows no identifiers, for exercising the fixed-offset
paths. -/
def trivialProvider : TimeZoneProvider where
  get_named_tz_offset_nanoseconds := fun _ _ => .error (.range "unknown identifier")
  get_named_tz_epoch_nanoseconds := fun _ _ => .error (.range "unknown identifier")

/-- A provider whose named zone has a spring-forward gap covering local
midnight of day 0: local hours before 1 on day 0 are skipped, the transition
epoch is reported as second 42, and every other local time maps to one
instant. -/
def midnightGapProvider : TimeZoneProvider where
  get_named_tz_offset_nanoseconds := fun _ _ => .ok ⟨3600, some 42⟩
  get_named_tz_epoch_nanoseconds := fun _ iso =>
    if iso.date.epochDays = 0 ∧ iso.time.hour = 0 then .ok [] else .ok [⟨1000⟩]

/-- A provider that reports a candidate beyond the representable-instant
bound for every local time. -/
def outOfRangeProvider : TimeZoneProvider where
  get_named_tz_offset_nanoseconds := fun _ _ => .ok ⟨0, none⟩
  get_named_tz_epoch_nanoseconds := fun _ _ =>
    .ok [⟨0⟩, ⟨8640000000000000000001⟩]

-- Helper lemmas

/-- Rust `l[0]` agrees with taking the first element. -/
theorem listIndex_zero {α : Type} (l : List α) : listIndex l 0 = specFirst l := by
  cases l <;> rfl

/-- Rust `l[l.len() - 1]` agrees with taking the last element. -/
theorem listIndex_last {α : Type} (l : List α) :
    listIndex l (l.length - 1) = specLast l := by
  induction l with
  | nil => rfl
  | cons x xs ih =>
    cases xs with
    | nil => rfl
    | cons y ys =>
      have h1 : listIndex (x :: y :: ys) ((x :: y :: ys).length - 1)
          = listIndex (y :: ys) ((y :: ys).length - 1) := by
        simp [listIndex, List.length_cons]
      rw [h1, ih]
      simp [specLast, List.getLast?_cons_cons]

/-- C1: `disambiguate_possible_epoch_nanos` candidate-count state machine: a
single candidate is returned for every policy; for a two-candidate fold,
`Compatible`/`Earlier` return the first candidate, `Later` the last, and
`Reject` fails with the ambiguous-time error; for an empty list (gap),
`Reject` also fails with the ambiguous-time error. -/
theorem disambiguate_candidate_count_cases (tz : TimeZone) (iso : IsoDateTime)
    (p : TimeZoneProvider) (a b : EpochNanoseconds) :
    (∀ d : Disambiguation, tz.disambiguate_possible_epoch_nanos [a] iso d p = .ok a) ∧
    (tz.disambiguate_possible_epoch_nanos [a, b] iso .Compatible p = .ok a) ∧
    (tz.disambiguate_possible_epoch_nanos [a, b] iso .Earlier p = .ok a) ∧
    (tz.disambiguate_possible_epoch_nanos [a, b] iso .Later p = .ok b) ∧
    (tz.disambiguate_possible_epoch_nanos [a, b] iso .Reject p = .error ambiguousTimeError) ∧
    (tz.disambiguate_possible_epoch_nanos [] iso .Reject p = .error ambiguousTimeError) := by
  refine ⟨fun d => ?_, rfl, rfl, rfl, rfl, rfl⟩
  cases d <;> rfl

/-- C2: for an empty candidate list and a non-`Reject` policy,
`disambiguate_possible_epoch_nanos` performs exactly the gap resolution the
specification describes: ±3-hour probes, `delta = offset_at(after_instant) −
offset_at(before_instant)`, a backward shift by `delta` with day-carry
re-balancing and the first re-resolved candidate for `Earlier`, and a forward
shift by `delta` with re-balancing and the last re-resolved candidate for
`Compatible`/`Later`. -/
theorem gap_disambiguation_matches_spec (tz : TimeZone) (iso : IsoDateTime)
    (d : Disambiguation) (p : TimeZoneProvider) (h : d ≠ .Reject) :
    tz.disambiguate_possible_epoch_nanos [] iso d p = gapResolutionSpec tz iso d p := by
  unfold TimeZone.disambiguate_possible_epoch_nanos gapResolutionSpec
  rw [if_neg h]
  simp [listIndex_zero, listIndex_last]

/-- Witness for C2 at a concrete gap: the code's gap branch and the
specification's description agree on a concrete provider and local time. -/
theorem gap_disambiguation_matches_spec_witness :
    (TimeZone.IanaIdentifier "Gap").disambiguate_possible_epoch_nanos []
        ⟨⟨0⟩, ⟨0, 30, 0, 0, 0, 0⟩⟩ .Earlier midnightGapProvider =
      gapResolutionSpec (TimeZone.IanaIdentifier "Gap")
        ⟨⟨0⟩, ⟨0, 30, 0, 0, 0, 0⟩⟩ .Earlier midnightGapProvider :=
  gap_disambiguation_matches_spec (TimeZone.IanaIdentifier "Gap")
    ⟨⟨0⟩, ⟨0, 30, 0, 0, 0, 0⟩⟩ .Earlier midnightGapProvider (by decide)

/-- C8: the fixed-offset branch of `get_possible_epoch_ns_for`, called with a
sub-minute-precision offset, fails fast with an internal invariant failure
(the source `debug_assert!`), never an ordinary result and never a
recoverable data error. -/
theorem subminute_offset_invariant_failure (o : UtcOffset) (iso : IsoDateTime)
    (p : TimeZoneProvider) (h : o.is_sub_minute = true) :
    (TimeZone.UtcOffset o).get_possible_epoch_ns_for iso p =
      .error (.invariantPanic
        "Called get_possible_epoch_ns_for on a sub-minute-precision offset") ∧
    (∀ l, (TimeZone.UtcOffset o).get_possible_epoch_ns_for iso p ≠ .ok l) ∧
    (∀ e, (TimeZone.UtcOffset o).get_possible_epoch_ns_for iso p = .error e →
      e.isInvariantFailure = true) := by
  have hmain : (TimeZone.UtcOffset o).get_possible_epoch_ns_for iso p =
      .error (.invariantPanic
        "Called get_possible_epoch_ns_for on a sub-minute-precision offset") := by
    unfold TimeZone.get_possible_epoch_ns_for
    simp only [h]
    rfl
  refine ⟨hmain, ?_, ?_⟩
  · intro l hl
    rw [hmain] at hl
    exact Except.noConfusion hl
  · intro e he
    rw [hmain] at he
    injection he with he
    rw [← he]
    rfl

/-- Witness for C8 at a concrete sub-minute offset (30 seconds). -/
theorem subminute_offset_invariant_failure_witness :
    (TimeZone.UtcOffset ⟨30000000000⟩).get_possible_epoch_ns_for
        ⟨⟨0⟩, IsoTime.midnight⟩ trivialProvider =
      .error (.invariantPanic
        "Called get_possible_epoch_ns_for on a sub-minute-precision offset") :=
  (subminute_offset_invariant_failure ⟨30000000000⟩ ⟨⟨0⟩, IsoTime.midnight⟩
    trivialProvider (by decide)).1

/-- C9: `UtcOffset::minutes` never fails: when the truncated whole-minute
count fits in `i16` it is returned, and otherwise the accessor returns 0. -/
theorem utcOffset_minutes_narrowing (o : UtcOffset) :
    ((-32768 ≤ o.ns.tdiv NS_IN_MIN ∧ o.ns.tdiv NS_IN_MIN ≤ 32767) →
      o.minutes = o.ns.tdiv NS_IN_MIN) ∧
    ((o.ns.tdiv NS_IN_MIN < -32768 ∨ 32767 < o.ns.tdiv NS_IN_MIN) →
      o.minutes = 0) := by
  unfold UtcOffset.minutes i16TryFrom
  constructor
  · intro h
    rw [if_pos h]
    rfl
  · intro h
    rw [if_neg (by omega)]
    rfl

/-- Witness for C9: an in-range offset returns its minute count, an
out-of-range offset returns 0. -/
theorem utcOffset_minutes_narrowing_witness :
    (UtcOffset.mk 34200000000000).minutes = 570 ∧
    (UtcOffset.mk 1152921504606846976).minutes = 0 := by
  constructor
  · have h := (utcOffset_minutes_narrowing ⟨34200000000000⟩).1 (by decide)
    rw [h]
    decide
  · exact (utcOffset_minutes_narrowing ⟨1152921504606846976⟩).2 (by decide)

/-- C10: `from_minutes` followed by `minutes` round-trips over the whole
`i16` range, and the resulting offset is never sub-minute. -/
theorem from_minutes_roundtrip (m : Int) (h1 : -32768 ≤ m) (h2 : m ≤ 32767) :
    (UtcOffset.from_minutes m).minutes = m ∧
    (UtcOffset.from_minutes m).is_sub_minute = false := by
  have hne : NS_IN_MIN ≠ 0 := by decide
  have hdiv : (m * NS_IN_MIN).tdiv NS_IN_MIN = m := Int.mul_tdiv_cancel m hne
  have hmod : (m * NS_IN_MIN).tmod NS_IN_MIN = 0 := Int.mul_tmod_left m NS_IN_MIN
  constructor
  · unfold UtcOffset.from_minutes UtcOffset.minutes i16TryFrom
    simp only [hdiv]
    rw [if_pos ⟨h1, h2⟩]
    rfl
  · unfold UtcOffset.from_minutes UtcOffset.is_sub_minute
    simp [hmod]

/-- Witness for C10 at the concrete minute counts ±570. -/
theorem from_minutes_roundtrip_witness :
    ((UtcOffset.from_minutes 570).minutes = 570 ∧
      (UtcOffset.from_minutes 570).is_sub_minute = false) ∧
    ((UtcOffset.from_minutes (-570)).minutes = -570 ∧
      (UtcOffset.from_minutes (-570)).is_sub_minute = false) :=
  ⟨from_minutes_roundtrip 570 (by decide) (by decide),
   from_minutes_roundtrip (-570) (by decide) (by decide)⟩

/-- The candidate validation loop of `get_possible_epoch_ns_for`: it succeeds
exactly when every candidate satisfies the representable-instant bound, and
fails with the instant-out-of-range error otherwise. -/
theorem forM_check_validity (l : List EpochNanoseconds) :
    l.forM EpochNanoseconds.check_validity =
      (if l.all (fun x => x.ns.natAbs ≤ nsMaxInstant.natAbs) then .ok PUnit.unit
       else .error instantOutOfRangeError) := by
  induction l with
  | nil => rfl
  | cons x xs ih =>
    have hstep : (x :: xs).forM EpochNanoseconds.check_validity
        = x.check_validity >>= fun _ => xs.forM EpochNanoseconds.check_validity := rfl
    by_cases hx : x.ns.natAbs ≤ nsMaxInstant.natAbs
    · have hcheck : x.check_validity = .ok () := by
        unfold EpochNanoseconds.check_validity
        rw [if_pos hx]
      rw [hstep, hcheck]
      show xs.forM EpochNanoseconds.check_validity = _
      rw [ih]
      simp [hx]
    · have hcheck : x.check_validity = .error instantOutOfRangeError := by
        unfold EpochNanoseconds.check_validity
        rw [if_neg hx]
      rw [hstep, hcheck]
      show Except.error instantOutOfRangeError = _
      simp [hx]

/-- The fixed-offset branch of `get_possible_epoch_ns_for`, written with the
balanced date-time named: range-check the balanced date, validate the single
candidate, return it. -/
theorem get_possible_fixed_eq (o : UtcOffset) (iso : IsoDateTime)
    (p : TimeZoneProvider) (hsub : o.is_sub_minute = false) :
    (TimeZone.UtcOffset o).get_possible_epoch_ns_for iso p =
      (do
        let _ ← (fixedOffsetBalanced o iso).date.is_valid_day_range
        let _ ← [(fixedOffsetBalanced o iso).as_nanoseconds].forM
          EpochNanoseconds.check_validity
        pure [(fixedOffsetBalanced o iso).as_nanoseconds]) := by
  unfold TimeZone.get_possible_epoch_ns_for fixedOffsetBalanced
  simp only [hsub]
  rfl

/-- The named branch of `get_possible_epoch_ns_for` once the provider's
answer is known: validate every candidate, return the list. -/
theorem get_possible_named_eq (id : String) (iso : IsoDateTime)
    (p : TimeZoneProvider) (l : List EpochNanoseconds)
    (hday : iso.date.epochDays.natAbs ≤ maxDayRange)
    (hl : p.get_named_tz_epoch_nanoseconds id iso = .ok l) :
    (TimeZone.IanaIdentifier id).get_possible_epoch_ns_for iso p =
      (do
        let _ ← l.forM EpochNanoseconds.check_validity
        pure l) := by
  have hv : iso.date.is_valid_day_range = .ok () := by
    unfold IsoDate.is_valid_day_range
    rw [if_pos hday]
  simp only [TimeZone.get_possible_epoch_ns_for]
  rw [hv, hl]
  rfl

/-- C4: `get_start_of_day` returns the first candidate of local midnight when
there is one; when midnight falls in a gap (named zone), it resolves the same
date at local hour 3, queries the provider's transition info at that instant
and returns the reported transition epoch, failing with the
start-of-day-undetermined error when the provider reports none. -/
theorem start_of_day_resolution (tz : TimeZone) (d : IsoDate) (p : TimeZoneProvider) :
    (∀ x rest, tz.get_possible_epoch_ns_for ⟨d, IsoTime.midnight⟩ p = .ok (x :: rest) →
      tz.get_start_of_day d p = .ok x) ∧
    (∀ id, tz = .IanaIdentifier id →
      tz.get_possible_epoch_ns_for ⟨d, IsoTime.midnight⟩ p = .ok [] →
      ∀ a arest, tz.get_possible_epoch_ns_for ⟨d, ⟨3, 0, 0, 0, 0, 0⟩⟩ p = .ok (a :: arest) →
        (∀ off te, p.get_named_tz_offset_nanoseconds id a.ns = .ok ⟨off, some te⟩ →
          tz.get_start_of_day d p = .ok ⟨te * 1000000000⟩) ∧
        (∀ off, p.get_named_tz_offset_nanoseconds id a.ns = .ok ⟨off, none⟩ →
          tz.get_start_of_day d p = .error startOfDayUndeterminedError)) := by
  constructor
  · intro x rest hx
    simp only [TimeZone.get_start_of_day]
    rw [hx]
    rfl
  · rintro id rfl hmid a arest hafter
    have h1 : (TimeZone.IanaIdentifier id).get_start_of_day d p
        = (do
            let info ← p.get_named_tz_offset_nanoseconds id a.ns
            match info.transition_epoch with
            | none => (.error startOfDayUndeterminedError : TemporalResult EpochNanoseconds)
            | some te2 => pure ⟨te2 * 1000000000⟩) := by
      simp only [TimeZone.get_start_of_day]
      rw [hmid, hafter]
      rfl
    constructor
    · intro off te hinfo
      rw [h1, hinfo]
      rfl
    · intro off hinfo
      rw [h1, hinfo]
      rfl

/-- Witness for C4 on a provider whose named zone skips local midnight of day
0 and reports transition second 42: the start of day is instant 42·10⁹. -/
theorem start_of_day_resolution_witness :
    (TimeZone.IanaIdentifier "Gap").get_start_of_day ⟨0⟩ midnightGapProvider =
      .ok ⟨42000000000⟩ := by
  have h := (start_of_day_resolution (.IanaIdentifier "Gap") ⟨0⟩ midnightGapProvider).2
    "Gap" rfl (by rfl) ⟨1000⟩ [] (by rfl)
  exact h.1 3600 42 (by rfl)

/-- C6: error handling of `get_possible_epoch_ns_for`: the named branch fails
with the date-out-of-range error when the unbalanced local date is outside
the representable day range, for every provider (so before any provider
query); and in both branches a candidate violating the representable-instant
bound fails the whole call with the instant-out-of-range error rather than
returning a partial list. -/
theorem possible_instants_error_handling (id : String) (o : UtcOffset)
    (iso : IsoDateTime) (p : TimeZoneProvider) (l : List EpochNanoseconds) :
    (¬ iso.date.epochDays.natAbs ≤ maxDayRange →
      ∀ p2 : TimeZoneProvider,
        (TimeZone.IanaIdentifier id).get_possible_epoch_ns_for iso p2 =
          .error dateOutOfRangeError) ∧
    (iso.date.epochDays.natAbs ≤ maxDayRange →
      p.get_named_tz_epoch_nanoseconds id iso = .ok l →
      (∃ x ∈ l, x.check_validity = .error instantOutOfRangeError) →
      (TimeZone.IanaIdentifier id).get_possible_epoch_ns_for iso p =
        .error instantOutOfRangeError) ∧
    (o.is_sub_minute = false →
      (fixedOffsetBalanced o iso).date.epochDays.natAbs ≤ maxDayRange →
      (fixedOffsetBalanced o iso).as_nanoseconds.check_validity =
        .error instantOutOfRangeError →
      (TimeZone.UtcOffset o).get_possible_epoch_ns_for iso p =
        .error instantOutOfRangeError) := by
  refine ⟨?_, ?_, ?_⟩
  · intro hbad p2
    have hv : iso.date.is_valid_day_range = .error dateOutOfRangeError := by
      unfold IsoDate.is_valid_day_range
      rw [if_neg hbad]
    simp only [TimeZone.get_possible_epoch_ns_for]
    rw [hv]
    rfl
  · intro hgood hl hex
    have hall : l.all (fun x => x.ns.natAbs ≤ nsMaxInstant.natAbs) = false := by
      obtain ⟨x, hmem, hxbad⟩ := hex
      have hxb : ¬ x.ns.natAbs ≤ nsMaxInstant.natAbs := by
        intro hc
        unfold EpochNanoseconds.check_validity at hxbad
        rw [if_pos hc] at hxbad
        exact Except.noConfusion hxbad
      by_contra hcon
      have htrue : l.all (fun x => x.ns.natAbs ≤ nsMaxInstant.natAbs) = true := by
        cases h2 : l.all (fun x => x.ns.natAbs ≤ nsMaxInstant.natAbs) with
        | true => rfl
        | false => exact absurd h2 hcon
      rw [List.all_eq_true] at htrue
      exact hxb (by simpa using htrue x hmem)
    rw [get_possible_named_eq id iso p l hgood hl, forM_check_validity, hall]
    rfl
  · intro hsub hday hbad
    have hv : (fixedOffsetBalanced o iso).date.is_valid_day_range = .ok () := by
      unfold IsoDate.is_valid_day_range
      rw [if_pos hday]
    have hall : ([(fixedOffsetBalanced o iso).as_nanoseconds].all
        (fun x => x.ns.natAbs ≤ nsMaxInstant.natAbs)) = false := by
      have hxb : ¬ (fixedOffsetBalanced o iso).as_nanoseconds.ns.natAbs ≤
          nsMaxInstant.natAbs := by
        intro hc
        unfold EpochNanoseconds.check_validity at hbad
        rw [if_pos hc] at hbad
        exact Except.noConfusion hbad
      simp [hxb]
    rw [get_possible_fixed_eq o iso p hsub, hv, forM_check_validity, hall]
    rfl

/-- Witness for C6: a provider reporting a candidate beyond the
representable-instant bound makes the whole call fail. -/
theorem possible_instants_error_handling_witness :
    (TimeZone.IanaIdentifier "Bad").get_possible_epoch_ns_for
        ⟨⟨0⟩, IsoTime.midnight⟩ outOfRangeProvider = .error instantOutOfRangeError :=
  (possible_instants_error_handling "Bad" ⟨0⟩ ⟨⟨0⟩, IsoTime.midnight⟩
    outOfRangeProvider [⟨0⟩, ⟨8640000000000000000001⟩]).2.1 (by decide) (by rfl)
    ⟨⟨8640000000000000000001⟩, by decide, by rfl⟩

/-- Recomposition: the time decomposed from a within-day nanosecond count
denotes exactly that count. -/
theorem timeFromNs_toNs (r : Nat) (h : r < 86400000000000) :
    (timeFromNs r).toNs = (r : Int) := by
  unfold timeFromNs IsoTime.toNs
  dsimp only
  norm_cast
  omega

/-- `balanceTimeNs` is the floor day/time decomposition: carry times day
length plus the time recomposes the input, and the time is within one day. -/
theorem balanceTimeNs_decomp (t : Int) :
    (balanceTimeNs t).fst * nsPerDay + (balanceTimeNs t).snd.toNs = t ∧
    0 ≤ (balanceTimeNs t).snd.toNs ∧ (balanceTimeNs t).snd.toNs < nsPerDay := by
  have hpos : (0:Int) < nsPerDay := by decide
  have h2 : 0 ≤ t % nsPerDay := Int.emod_nonneg t (by decide)
  have h3 : t % nsPerDay < nsPerDay := Int.emod_lt_of_pos t hpos
  have hd : nsPerDay = 86400000000000 := rfl
  have h4 : (t % nsPerDay).toNat < 86400000000000 := by omega
  simp only [balanceTimeNs]
  rw [timeFromNs_toNs _ h4, Int.toNat_of_nonneg h2]
  rw [hd] at h2 h3 ⊢
  refine ⟨?_, h2, h3⟩
  omega

/-- `IsoDateTime.balance` written as a day/time decomposition of the total
nanosecond count. -/
theorem balance_eq (days h min s ms us ns : Int) :
    IsoDateTime.balance days h min s ms us ns
      = ⟨⟨days + (balanceTimeNs (((h * 60 + min) * 60 + s) * 1000000000
            + ms * 1000000 + us * 1000 + ns)).fst⟩,
         (balanceTimeNs (((h * 60 + min) * 60 + s) * 1000000000
            + ms * 1000000 + us * 1000 + ns)).snd⟩ := rfl

/-- The fixed-offset branch at valid inputs: exactly the singleton of the
balanced date-time's instant. -/
theorem get_possible_fixed_ok (o : UtcOffset) (iso : IsoDateTime)
    (p : TimeZoneProvider) (hsub : o.is_sub_minute = false)
    (hday : (fixedOffsetBalanced o iso).date.epochDays.natAbs ≤ maxDayRange)
    (hval : (fixedOffsetBalanced o iso).as_nanoseconds.ns.natAbs ≤ nsMaxInstant.natAbs) :
    (TimeZone.UtcOffset o).get_possible_epoch_ns_for iso p =
      .ok [(fixedOffsetBalanced o iso).as_nanoseconds] := by
  rw [get_possible_fixed_eq o iso p hsub]
  have hv : (fixedOffsetBalanced o iso).date.is_valid_day_range = .ok () := by
    unfold IsoDate.is_valid_day_range
    rw [if_pos hday]
  have hall : [(fixedOffsetBalanced o iso).as_nanoseconds].all
      (fun x => x.ns.natAbs ≤ nsMaxInstant.natAbs) = true := by
    simp [hval]
  rw [hv, forM_check_validity, hall]
  rfl

/-- C3: the fixed-offset branch of `possible_instants_for` subtracts the
offset's minutes from the local minute field, balances with day carry, fails
with the date-out-of-range error when the balanced date leaves the
representable day range, and otherwise returns exactly the one candidate
obtained by converting the balanced date-time; consequently resolving the
local date-time that the offset assigns to any representable instant yields
exactly that instant back. -/
theorem fixed_offset_resolution (o : UtcOffset) (iso : IsoDateTime)
    (p : TimeZoneProvider) (i : Int) (hsub : o.is_sub_minute = false)
    (hbound : o.ns.natAbs ≤ nsPerDay.natAbs) :
    (¬ (fixedOffsetBalanced o iso).date.epochDays.natAbs ≤ maxDayRange →
      (TimeZone.UtcOffset o).get_possible_epoch_ns_for iso p =
        .error dateOutOfRangeError) ∧
    ((fixedOffsetBalanced o iso).date.epochDays.natAbs ≤ maxDayRange →
      (fixedOffsetBalanced o iso).as_nanoseconds.ns.natAbs ≤ nsMaxInstant.natAbs →
      (TimeZone.UtcOffset o).get_possible_epoch_ns_for iso p =
        .ok [(fixedOffsetBalanced o iso).as_nanoseconds]) ∧
    (i.natAbs ≤ nsMaxInstant.natAbs →
      ∀ localDt, (TimeZone.UtcOffset o).get_iso_datetime_for i p = .ok localDt →
        (TimeZone.UtcOffset o).get_possible_epoch_ns_for localDt p = .ok [⟨i⟩]) := by
  have hb86 : o.ns.natAbs ≤ 86400000000000 := hbound
  refine ⟨?_, ?_, ?_⟩
  · intro hbad
    rw [get_possible_fixed_eq o iso p hsub]
    have hv : (fixedOffsetBalanced o iso).date.is_valid_day_range =
        .error dateOutOfRangeError := by
      unfold IsoDate.is_valid_day_range
      rw [if_neg hbad]
    rw [hv]
    rfl
  · intro hday hval
    exact get_possible_fixed_ok o iso p hsub hday hval
  · intro hi localDt hok
    have hi' : i.natAbs ≤ 8640000000000000000000 := hi
    -- the offset is an exact number of minutes
    have hmod : o.ns.tmod NS_IN_MIN = 0 := by
      unfold UtcOffset.is_sub_minute at hsub
      simpa using hsub
    obtain ⟨k, hk⟩ := Int.dvd_of_tmod_eq_zero hmod
    have hm60 : NS_IN_MIN = 60000000000 := rfl
    have htd : o.ns.tdiv NS_IN_MIN = k := by
      rw [hk]
      exact Int.mul_tdiv_cancel_left k (by decide)
    have hkrange : -1440 ≤ k ∧ k ≤ 1440 := by
      rw [hm60] at hk
      omega
    have hmin : o.minutes = k := by
      unfold UtcOffset.minutes i16TryFrom
      rw [htd, if_pos ⟨by omega, by omega⟩]
      rfl
    -- unpack the local date-time produced for the instant
    have hlossy : i64Lossy o.ns = o.ns := by
      unfold i64Lossy
      rw [if_pos ⟨by omega, by omega⟩]
    have hoff : (TimeZone.UtcOffset o).get_iso_datetime_for i p
        = IsoDateTime.from_epoch_nanos i (i64Lossy o.ns) := rfl
    rw [hoff, hlossy] at hok
    unfold IsoDateTime.from_epoch_nanos at hok
    by_cases hr : (balanceTimeNs (i + o.ns)).fst.natAbs ≤ maxIsoDays
    case neg =>
      rw [if_neg hr] at hok
      exact absurd hok (by simp)
    rw [if_pos hr] at hok
    injection hok with hok
    subst hok
    -- name the decomposition of the shifted instant
    have hbt := balanceTimeNs_decomp (i + o.ns)
    have hPd : nsPerDay = 86400000000000 := rfl
    -- the balanced value recomposes to the instant itself
    have htot : ((((balanceTimeNs (i + o.ns)).snd.hour : Int) * 60 +
          (((balanceTimeNs (i + o.ns)).snd.minute : Int) - k)) * 60 +
          ((balanceTimeNs (i + o.ns)).snd.second : Int)) * 1000000000
          + ((balanceTimeNs (i + o.ns)).snd.millisecond : Int) * 1000000
          + ((balanceTimeNs (i + o.ns)).snd.microsecond : Int) * 1000
          + ((balanceTimeNs (i + o.ns)).snd.nanosecond : Int)
        = (balanceTimeNs (i + o.ns)).snd.toNs - k * 60000000000 := by
      unfold IsoTime.toNs
      push_cast
      ring
    have hbal : fixedOffsetBalanced o ⟨⟨(balanceTimeNs (i + o.ns)).fst⟩,
          (balanceTimeNs (i + o.ns)).snd⟩
        = ⟨⟨(balanceTimeNs (i + o.ns)).fst +
              (balanceTimeNs ((balanceTimeNs (i + o.ns)).snd.toNs
                - k * 60000000000)).fst⟩,
            (balanceTimeNs ((balanceTimeNs (i + o.ns)).snd.toNs
                - k * 60000000000)).snd⟩ := by
      unfold fixedOffsetBalanced
      rw [hmin, balance_eq, htot]
    have hbt2 := balanceTimeNs_decomp
      ((balanceTimeNs (i + o.ns)).snd.toNs - k * 60000000000)
    -- total nanoseconds of the re-balanced value equal the instant
    have hsum : ((balanceTimeNs (i + o.ns)).fst +
          (balanceTimeNs ((balanceTimeNs (i + o.ns)).snd.toNs
            - k * 60000000000)).fst) * nsPerDay
          + (balanceTimeNs ((balanceTimeNs (i + o.ns)).snd.toNs
            - k * 60000000000)).snd.toNs = i := by
      obtain ⟨e1, _, _⟩ := hbt
      obtain ⟨e2, _, _⟩ := hbt2
      rw [hm60] at hk
      rw [hPd] at e1 e2 ⊢
      omega
    have hasns : (fixedOffsetBalanced o ⟨⟨(balanceTimeNs (i + o.ns)).fst⟩,
          (balanceTimeNs (i + o.ns)).snd⟩).as_nanoseconds = ⟨i⟩ := by
      rw [hbal]
      unfold IsoDateTime.as_nanoseconds
      exact congrArg EpochNanoseconds.mk hsum
    have hdayok : (fixedOffsetBalanced o ⟨⟨(balanceTimeNs (i + o.ns)).fst⟩,
          (balanceTimeNs (i + o.ns)).snd⟩).date.epochDays.natAbs ≤ maxDayRange := by
      rw [hbal]
      obtain ⟨-, l2, l3⟩ := hbt2
      rw [hPd] at hsum l3
      show ((balanceTimeNs (i + o.ns)).fst +
        (balanceTimeNs ((balanceTimeNs (i + o.ns)).snd.toNs
          - k * 60000000000)).fst).natAbs ≤ 100000000
      omega
    have hvalok : (fixedOffsetBalanced o ⟨⟨(balanceTimeNs (i + o.ns)).fst⟩,
          (balanceTimeNs (i + o.ns)).snd⟩).as_nanoseconds.ns.natAbs
        ≤ nsMaxInstant.natAbs := by
      rw [hasns]
      exact hi
    rw [get_possible_fixed_ok o _ p hsub hdayok hvalok, hasns]

/-- Witness for C3: the instant 0 seen through the offset +09:30 is local
09:30 on day 0, and resolving that local time returns exactly instant 0. -/
theorem fixed_offset_resolution_witness :
    (TimeZone.UtcOffset ⟨34200000000000⟩).get_possible_epoch_ns_for
        ⟨⟨0⟩, ⟨9, 30, 0, 0, 0, 0⟩⟩ trivialProvider = .ok [⟨0⟩] :=
  (fixed_offset_resolution ⟨34200000000000⟩ ⟨⟨0⟩, IsoTime.midnight⟩
      trivialProvider 0 (by decide) (by decide)).2.2 (by decide)
    ⟨⟨0⟩, ⟨9, 30, 0, 0, 0, 0⟩⟩ (by rfl)

/-- Bind of a successful result steps to the continuation. -/
theorem tr_bind_ok {α β : Type} (a : α) (f : α → TemporalResult β) :
    ((.ok a : TemporalResult α) >>= f) = f a := rfl

/-- Bind of a pure value steps to the continuation. -/
theorem tr_bind_pure {α β : Type} (a : α) (f : α → TemporalResult β) :
    ((pure a : TemporalResult α) >>= f) = f a := rfl

/-- A digit character parses back to its digit value. -/
theorem charDigit_digitChar (a : Nat) (h : a < 10) :
    charDigit? (digitChar a) = some a := by
  interval_cases a <;> rfl

/-- A two-digit field parses back to its value. -/
theorem parse2_digits (a b : Nat) (ha : a < 10) (hb : b < 10) (rest : List Char) :
    parse2 (digitChar a :: digitChar b :: rest) = .ok (10 * a + b, rest) := by
  simp only [parse2, charDigit_digitChar a ha, charDigit_digitChar b hb]

/-- A two-digit value renders as its two digit characters. -/
theorem pad2_eq (n : Nat) (h : n < 100) :
    pad2 n = [digitChar (n / 10), digitChar (n % 10)] := by
  unfold pad2
  rw [if_pos h]

/-- The head of a `dropWhile` never satisfies the dropped predicate. -/
theorem head_dropWhile_false (p : Char → Bool) (l : List Char) :
    ∀ a, ((l.dropWhile p).head? = some a) → p a = false := by
  induction l with
  | nil =>
    intro a h
    simp [List.dropWhile] at h
  | cons x xs ih =>
    intro a h
    rw [List.dropWhile_cons] at h
    by_cases hx : p x = true
    · rw [if_pos hx] at h
      exact ih a h
    · rw [if_neg hx] at h
      simp only [List.head?_cons, Option.some.injEq] at h
      rw [← h]
      cases hpx : p x with
      | true => exact absurd hpx hx
      | false => rfl

/-- Trimming trailing zeros: the trimmed list restores the original when
padded back with zeros, and never ends in a zero digit. -/
theorem trimZeros_spec (l : List Char) :
    ∃ k, trimZeros l ++ List.replicate k '0' = l ∧
      (trimZeros l).getLast? ≠ some '0' := by
  refine ⟨(l.reverse.takeWhile (fun c => c == '0')).length, ?_, ?_⟩
  · have hrep : l.reverse.takeWhile (fun c => c == '0')
        = List.replicate (l.reverse.takeWhile (fun c => c == '0')).length '0' := by
      apply List.eq_replicate_of_mem
      intro b hb
      have hz := List.mem_takeWhile_imp hb
      simpa using hz
    conv_rhs => rw [← List.reverse_reverse l,
      ← List.takeWhile_append_dropWhile (p := fun c => c == '0') (l := l.reverse)]
    rw [List.reverse_append]
    unfold trimZeros
    rw [congrArg List.reverse hrep, List.reverse_replicate]
  · intro hlast
    unfold trimZeros at hlast
    rw [List.getLast?_reverse] at hlast
    have := head_dropWhile_false (fun c => c == '0') l.reverse '0' hlast
    simp at this

/-- The nine-digit expansion spelled out. -/
theorem fracDigits9_eq (n : Nat) :
    fracDigits9 n = [digitChar (n / 100000000 % 10), digitChar (n / 10000000 % 10),
      digitChar (n / 1000000 % 10), digitChar (n / 100000 % 10),
      digitChar (n / 10000 % 10), digitChar (n / 1000 % 10),
      digitChar (n / 100 % 10), digitChar (n / 10 % 10), digitChar (n / 1 % 10)] := rfl

/-- A digit character is the zero character exactly for the digit 0. -/
theorem digitChar_eq_zero_iff (d : Nat) (h : d < 10) :
    digitChar d = '0' ↔ d = 0 := by
  interval_cases d <;> decide

/-- If all nine digits of a sub-second count are zero, the count is zero. -/
theorem fracDigits9_all_zero (n : Nat) (hn : n < 1000000000)
    (h : fracDigits9 n = List.replicate 9 '0') : n = 0 := by
  rw [fracDigits9_eq] at h
  have hrep : List.replicate 9 '0' =
      (['0', '0', '0', '0', '0', '0', '0', '0', '0'] : List Char) := rfl
  rw [hrep] at h
  injection h with h1 h
  injection h with h2 h
  injection h with h3 h
  injection h with h4 h
  injection h with h5 h
  injection h with h6 h
  injection h with h7 h
  injection h with h8 h
  injection h with h9 h
  rw [digitChar_eq_zero_iff _ (by omega)] at h1 h2 h3 h4 h5 h6 h7 h8 h9
  omega

/-- C7: `UtcOffset::to_string` always begins with an explicit sign followed
by two-digit hour, a colon and two-digit minute; the seconds block and the
fraction are emitted only when the second or sub-second component is non-zero
(both omitted when both are zero); the fraction is the nine-digit expansion
trimmed to the minimum digits needed (never ending in a zero digit, at most
nine digits). -/
theorem to_string_format (o : UtcOffset) (hbound : o.ns.natAbs ≤ nsPerDay.natAbs) :
    ((o.to_string).data.head? = some '+' ∨ (o.to_string).data.head? = some '-') ∧
    (o.fmtSecond = 0 ∧ o.fmtNanosecond = 0 →
      (o.to_string).data =
        [(if o.ns < 0 then '-' else '+'),
         digitChar (o.fmtHour / 10), digitChar (o.fmtHour % 10), ':',
         digitChar (o.fmtMinute / 10), digitChar (o.fmtMinute % 10)]) ∧
    (¬ (o.fmtSecond = 0 ∧ o.fmtNanosecond = 0) →
      ∃ fr : List Char,
        (o.to_string).data =
          [(if o.ns < 0 then '-' else '+'),
           digitChar (o.fmtHour / 10), digitChar (o.fmtHour % 10), ':',
           digitChar (o.fmtMinute / 10), digitChar (o.fmtMinute % 10), ':',
           digitChar (o.fmtSecond / 10), digitChar (o.fmtSecond % 10)] ++ fr ∧
        (o.fmtNanosecond = 0 → fr = []) ∧
        (o.fmtNanosecond ≠ 0 →
          ∃ ds : List Char, fr = '.' :: ds ∧
            1 ≤ ds.length ∧ ds.length ≤ 9 ∧
            ds ++ List.replicate (9 - ds.length) '0' = fracDigits9 o.fmtNanosecond ∧
            ds.getLast? ≠ some '0')) := by
  have hb86 : o.ns.natAbs ≤ 86400000000000 := hbound
  have hhour : o.fmtHour < 100 := by
    unfold UtcOffset.fmtHour u8Lossy
    split <;> omega
  have hminute : o.fmtMinute < 100 := by
    unfold UtcOffset.fmtMinute u8Lossy
    split <;> omega
  have hsecond : o.fmtSecond < 100 := by
    unfold UtcOffset.fmtSecond u8Lossy
    split <;> omega
  have hnano : o.fmtNanosecond < 1000000000 := by
    unfold UtcOffset.fmtNanosecond u32Lossy
    split <;> omega
  have hpadh := pad2_eq o.fmtHour hhour
  have hpadm := pad2_eq o.fmtMinute hminute
  have hpads := pad2_eq o.fmtSecond hsecond
  have hdata : (o.to_string).data = FormattableOffset.render
      ⟨if o.ns < 0 then Sign.negative else Sign.positive,
       ⟨o.fmtHour, o.fmtMinute, o.fmtSecond, o.fmtNanosecond,
        if o.fmtNanosecond = 0 ∧ o.fmtSecond = 0 then Precision.minute
        else Precision.auto, true⟩⟩ := rfl
  refine ⟨?_, ?_, ?_⟩
  · by_cases hneg : o.ns < 0 <;>
      by_cases hz : o.fmtNanosecond = 0 ∧ o.fmtSecond = 0 <;>
        simp [hdata, FormattableOffset.render, hneg, hz]
  · intro hz
    have hz2 : o.fmtNanosecond = 0 ∧ o.fmtSecond = 0 := ⟨hz.2, hz.1⟩
    by_cases hneg : o.ns < 0 <;>
      simp [hdata, FormattableOffset.render, hneg, hz2, hpadh, hpadm]
  · intro hnz
    have hz2 : ¬ (o.fmtNanosecond = 0 ∧ o.fmtSecond = 0) := by tauto
    refine ⟨(if o.fmtNanosecond = 0 then ([] : List Char)
      else '.' :: trimZeros (fracDigits9 o.fmtNanosecond)), ?_, ?_, ?_⟩
    · by_cases hneg : o.ns < 0 <;>
        simp [hdata, FormattableOffset.render, hneg, hz2, hpadh, hpadm, hpads]
    · intro h0
      rw [if_pos h0]
    · intro hne
      rw [if_neg hne]
      obtain ⟨k, happ, hlast⟩ := trimZeros_spec (fracDigits9 o.fmtNanosecond)
      have hlen9 : (fracDigits9 o.fmtNanosecond).length = 9 := by
        rw [fracDigits9_eq]
        rfl
      have hlensum : (trimZeros (fracDigits9 o.fmtNanosecond)).length + k = 9 := by
        have := congrArg List.length happ
        simpa [hlen9] using this
      have hone : 1 ≤ (trimZeros (fracDigits9 o.fmtNanosecond)).length := by
        by_contra hzero
        have h0 : trimZeros (fracDigits9 o.fmtNanosecond) = [] :=
          List.eq_nil_of_length_eq_zero (by omega)
        rw [h0, List.nil_append] at happ
        have hk9 : k = 9 := by omega
        rw [hk9] at happ
        exact hne (fracDigits9_all_zero o.fmtNanosecond hnano happ.symm)
      refine ⟨trimZeros (fracDigits9 o.fmtNanosecond), rfl, hone, by omega, ?_, hlast⟩
      have hk : k = 9 - (trimZeros (fracDigits9 o.fmtNanosecond)).length := by omega
      rw [← hk]
      exact happ

/-- Witness for C7 at the concrete offset of 1.5 seconds. -/
theorem to_string_format_witness :
    ((UtcOffset.mk 1500000000).to_string).data.head? = some '+' ∨
    ((UtcOffset.mk 1500000000).to_string).data.head? = some '-' :=
  (to_string_format ⟨1500000000⟩ (by decide)).1

/-- The tokenizer inverts the minute-precision rendering: a sign, two hour
digits, a colon and two minute digits parse back to the corresponding
record. -/
theorem parseOffsetText_minute (sc : Char) (sgn : Sign) (h m : Nat)
    (hsc : sc = '+' ∧ sgn = Sign.positive ∨ sc = '-' ∧ sgn = Sign.negative)
    (hh : h ≤ 23) (hm : m < 60) :
    parseOffsetText (sc :: digitChar (h / 10) :: digitChar (h % 10) :: ':' ::
      digitChar (m / 10) :: digitChar (m % 10) :: []) =
      .ok ⟨sgn, h, m, none, none⟩ := by
  have hcombh : 10 * (h / 10) + h % 10 = h := by omega
  have hcombm : 10 * (m / 10) + m % 10 = m := by omega
  have hm60 : m ≤ 60 := by omega
  rcases hsc with ⟨rfl, rfl⟩ | ⟨rfl, rfl⟩ <;>
    simp [parseOffsetText, parse2_digits (h / 10) (h % 10) (by omega) (by omega),
      parse2_digits (m / 10) (m % 10) (by omega) (by omega), hcombh, hcombm,
      hh, hm60, tr_bind_ok, tr_bind_pure]

/-- C5: round-trip of offset text: every minute-precision offset within a day
formats to a string that parses back to the same offset; concretely "+09:30"
parses to 34,200,000,000,000 ns and formats back to "+09:30", and "-12:30"
round-trips identically. -/
theorem offset_text_roundtrip (o : UtcOffset) (hsub : o.is_sub_minute = false)
    (hlt : o.ns.natAbs < nsPerDay.natAbs) :
    UtcOffset.from_utf8 o.to_string = .ok o ∧
    UtcOffset.from_utf8 "+09:30" = .ok ⟨34200000000000⟩ ∧
    (UtcOffset.mk 34200000000000).to_string = "+09:30" ∧
    UtcOffset.from_utf8 "-12:30" = .ok ⟨-45000000000000⟩ ∧
    (UtcOffset.mk (-45000000000000)).to_string = "-12:30" := by
  refine ⟨?_, rfl, rfl, rfl, rfl⟩
  have hb : o.ns.natAbs < 86400000000000 := hlt
  have hmod : o.ns.tmod NS_IN_MIN = 0 := by
    unfold UtcOffset.is_sub_minute at hsub
    simpa using hsub
  obtain ⟨k, hk⟩ := Int.dvd_of_tmod_eq_zero hmod
  have hm60 : NS_IN_MIN = (60000000000 : Int) := rfl
  rw [hm60] at hk
  have hna : o.ns.natAbs = 60000000000 * k.natAbs := by
    rw [hk]
    simp [Int.natAbs_mul]
  have hkb : k.natAbs ≤ 1439 := by omega
  have hfn : o.fmtNanosecond = 0 := by
    have h1 : o.ns.natAbs % 1000000000 = 0 := by omega
    unfold UtcOffset.fmtNanosecond
    rw [h1]
    rfl
  have hfs : o.fmtSecond = 0 := by
    have h1 : o.ns.natAbs / 1000000000 % 60 = 0 := by omega
    unfold UtcOffset.fmtSecond
    rw [h1]
    rfl
  have hfm : o.fmtMinute = k.natAbs % 60 := by
    have h1 : o.ns.natAbs / 1000000000 / 60 % 60 = k.natAbs % 60 := by omega
    unfold UtcOffset.fmtMinute
    rw [h1]
    unfold u8Lossy
    rw [if_pos (by omega)]
  have hfh : o.fmtHour = k.natAbs / 60 := by
    have h1 : o.ns.natAbs / 1000000000 / 60 / 60 = k.natAbs / 60 := by omega
    unfold UtcOffset.fmtHour
    rw [h1]
    unfold u8Lossy
    rw [if_pos (by omega)]
  have hpadh := pad2_eq o.fmtHour (by rw [hfh]; omega)
  have hpadm := pad2_eq o.fmtMinute (by rw [hfm]; omega)
  have hdata0 : (o.to_string).data = FormattableOffset.render
      ⟨if o.ns < 0 then Sign.negative else Sign.positive,
       ⟨o.fmtHour, o.fmtMinute, o.fmtSecond, o.fmtNanosecond,
        if o.fmtNanosecond = 0 ∧ o.fmtSecond = 0 then Precision.minute
        else Precision.auto, true⟩⟩ := rfl
  have hdata : (o.to_string).data =
      (if o.ns < 0 then '-' else '+') :: digitChar (o.fmtHour / 10) ::
        digitChar (o.fmtHour % 10) :: ':' :: digitChar (o.fmtMinute / 10) ::
        digitChar (o.fmtMinute % 10) :: [] := by
    by_cases hneg : o.ns < 0 <;>
      simp [hdata0, FormattableOffset.render, hneg, hfn, hfs, hpadh, hpadm]
  unfold UtcOffset.from_utf8
  rw [hdata]
  by_cases hneg : o.ns < 0
  · rw [if_pos hneg,
      parseOffsetText_minute '-' Sign.negative o.fmtHour o.fmtMinute
        (Or.inr ⟨rfl, rfl⟩) (by rw [hfh]; omega) (by rw [hfm]; omega),
      tr_bind_ok]
    unfold UtcOffset.from_ixdtf_record
    dsimp only [Sign.toInt]
    refine congrArg Except.ok (congrArg UtcOffset.mk ?_)
    rw [hfh, hfm, hm60]
    omega
  · rw [if_neg hneg,
      parseOffsetText_minute '+' Sign.positive o.fmtHour o.fmtMinute
        (Or.inl ⟨rfl, rfl⟩) (by rw [hfh]; omega) (by rw [hfm]; omega),
      tr_bind_ok]
    unfold UtcOffset.from_ixdtf_record
    dsimp only [Sign.toInt]
    refine congrArg Except.ok (congrArg UtcOffset.mk ?_)
    rw [hfh, hfm, hm60]
    omega

/-- Witness for C5: the concrete offset +09:30 parses back from its rendered
text. -/
theorem offset_text_roundtrip_witness :
    UtcOffset.from_utf8 (UtcOffset.mk 34200000000000).to_string =
      .ok ⟨34200000000000⟩ :=
  (offset_text_roundtrip ⟨34200000000000⟩ (by decide) (by decide)).1

end Temporal
